import Mathlib

/-!
Verification of the YouTube downloader application (`app.py`).

The source is a thin orchestration layer over an external extractor
(`yt_dlp`) and a web UI (`streamlit`).  We embed the pure helpers
(`list_available_resolutions`, `list_audio_formats`,
`detect_mime_from_ext`, `read_first_file_by_prefix`), the option
dictionaries built by `download_video` / `download_audio`, and the
scratch-directory lifecycle of both download entry points.

Python conventions are made explicit:
* `dict.get(k)` on a missing key yields `None`; optional attributes of a
  stream descriptor are `Option` fields.
* truthiness tests (`if height:`, `if abr ... else None`, `ext or "m4a"`,
  `q or 192`) treat `None`, `0` and `""` as false.
* `sorted(..., reverse=True)` is modelled by a stable insertion sort with
  the descending relation; `list({...})` (a set build) is modelled by
  `List.dedup`, a duplicate-free list of the same members.
-/

namespace YtApp

/-- One entry of `info["formats"]`: the attributes the helpers read.
Missing dictionary keys are `none`. -/
structure StreamFormat where
  vcodec : Option String
  acodec : Option String
  height : Option Int
  ext : Option String
  abr : Option Int
deriving DecidableEq, Repr

/-- Descending order on `Int`, the comparison used by
`sorted(heights, reverse=True)`. -/
def descInt (a b : Int) : Prop := b ≤ a

instance : DecidableRel descInt := fun a b => Int.decLe b a

instance : IsTotal Int descInt := ⟨fun a b => le_total b a⟩

instance : IsTrans Int descInt := ⟨fun _ _ _ h1 h2 => le_trans h2 h1⟩

/-- Python truthiness of the optional `height` attribute:
`f.get("height")` is true exactly when the key is present and nonzero. -/
def truthyHeight (f : StreamFormat) : Option Int :=
  match f.height with
  | some h => if h ≠ 0 then some h else none
  | none => none

/-- `list_available_resolutions` (app.py:18-24): collect the heights of
streams whose `vcodec` differs from the string `"none"` (an absent
`vcodec` passes this test) and whose `height` is truthy, as a set,
returned sorted descending. -/
def list_available_resolutions (formats : List StreamFormat) : List Int :=
  let heights := formats.filterMap fun f =>
    if f.vcodec ≠ some "none" then truthyHeight f else none
  List.insertionSort descInt heights.dedup

/-- `f.get("ext") or "m4a"` (app.py:33): the container extension with the
default `"m4a"` substituted when the attribute is absent or empty. -/
def ext_or_default (e : Option String) : String :=
  match e with
  | some s => if s ≠ "" then s else "m4a"
  | none => "m4a"

/-- `int(abr) if abr else None` (app.py:34): the bitrate is kept exactly
when the attribute is truthy (present and nonzero). -/
def coerced_abr (abr : Option Int) : Option Int :=
  match abr with
  | some a => if a ≠ 0 then some a else none
  | none => none

/-- The audio-only test of app.py:31:
`f.get("vcodec") == "none" and f.get("acodec") not in (None, "none")`. -/
def is_audio_only (f : StreamFormat) : Prop :=
  f.vcodec = some "none" ∧ f.acodec ≠ none ∧ f.acodec ≠ some "none"

instance (f : StreamFormat) : Decidable (is_audio_only f) := by
  unfold is_audio_only; infer_instance

/-- The sort key of app.py:37, `x[1] or 0`: an unknown bitrate sorts
as `0`. -/
def abrKey (p : String × Option Int) : Int := p.2.getD 0

/-- Descending order on audio pairs by `abrKey`, the comparison used by
`audio.sort(key=..., reverse=True)`. -/
def descAbr (x y : String × Option Int) : Prop := abrKey y ≤ abrKey x

instance : DecidableRel descAbr := fun x y => Int.decLe (abrKey y) (abrKey x)

instance : IsTotal (String × Option Int) descAbr := ⟨fun x y => le_total (abrKey y) (abrKey x)⟩

instance : IsTrans (String × Option Int) descAbr := ⟨fun _ _ _ h1 h2 => le_trans h2 h1⟩

/-- `list_audio_formats` (app.py:27-38): `(ext, abr)` pairs of the
audio-only streams, deduplicated by value equality, sorted by bitrate
descending with unknown bitrate as `0`. -/
def list_audio_formats (formats : List StreamFormat) : List (String × Option Int) :=
  let audio := formats.filterMap fun f =>
    if is_audio_only f then some (ext_or_default f.ext, coerced_abr f.abr) else none
  List.insertionSort descAbr audio.dedup

/-- ASCII lowering of one character, as `str.lower()` acts on the
letters appearing in the extension table. -/
def ascii_lower (c : Char) : Char :=
  if 'A' ≤ c ∧ c ≤ 'Z' then Char.ofNat (c.toNat + 32) else c

/-- `ext.lower()` (app.py:52), on the character list of the string. -/
def lower_str (s : String) : String :=
  String.mk (s.data.map ascii_lower)

/-- `detect_mime_from_ext` (app.py:41-52): static extension-to-MIME
table, case-insensitive, with a generic binary fallback. -/
def detect_mime_from_ext (ext : String) : String :=
  let e := lower_str ext
  if e = "mp4" then "video/mp4"
  else if e = "webm" then "video/webm"
  else if e = "mkv" then "video/x-matroska"
  else if e = "mp3" then "audio/mpeg"
  else if e = "m4a" then "audio/mp4"
  else if e = "aac" then "audio/aac"
  else if e = "opus" then "audio/ogg"
  else if e = "wav" then "audio/wav"
  else "application/octet-stream"

/-- File contents, abstractly. -/
abbrev Bytes := List Nat

/-- `name.split(".")[-1]` (app.py:62): the last dot-separated component
of a filename, on the character list of the string. -/
def last_ext (name : String) : String :=
  String.mk ((name.data.splitOn '.').getLastD [])

/-- `name.startswith(stem)` (app.py:58), on the character lists of the
two strings. -/
def starts_with (name stem : String) : Bool :=
  stem.data.isPrefixOf name.data

/-- `read_first_file_by_prefix` (app.py:55-64): scan a directory listing
for the first name starting with the stem, return its bytes, name and
inferred MIME type, or raise `FileNotFoundError` when none matches.
(The source names this function with the word `prefix`; the parameter is
called `stem` here.) -/
def read_first_file_by_stem (files : List (String × Bytes)) (stem : String) :
    Except String (Bytes × String × String) :=
  match files with
  | [] => .error "Downloaded file not found."
  | (name, data) :: rest =>
    if starts_with name stem then
      .ok (data, name, detect_mime_from_ext (last_ext name))
    else
      read_first_file_by_stem rest stem

/-- The `ydl_opts` dictionary of `download_video` (app.py:81-87). -/
structure VideoOpts where
  format : String
  outtmpl : String
  merge_output_format : String
  quiet : Bool
deriving DecidableEq, Repr

/-- One entry of the `postprocessors` list of `download_audio`
(app.py:110-116). -/
structure Postprocessor where
  key : String
  preferredcodec : String
  preferredquality : String
deriving DecidableEq, Repr

/-- The `ydl_opts` dictionary of `download_audio` (app.py:106-117). -/
structure AudioOpts where
  format : String
  outtmpl : String
  quiet : Bool
  postprocessors : List Postprocessor
deriving DecidableEq, Repr

/-- The format selector of app.py:76-79: `if height:` is Python
truthiness, so `None` and `0` both take the unconstrained branch. -/
def video_format_selector (height : Option Int) : String :=
  match height with
  | some h =>
    if h ≠ 0 then
      "bestvideo[height=" ++ toString h ++ "]+bestaudio/best[height="
        ++ toString h ++ "]/best"
    else "bestvideo+bestaudio/best"
  | none => "bestvideo+bestaudio/best"

/-- The options `download_video` hands to `YoutubeDL` (app.py:81-87),
with `tmp` the scratch-directory path. -/
def download_video_opts (tmp : String) (height : Option Int) : VideoOpts :=
  { format := video_format_selector height
    outtmpl := tmp ++ "/output.%(ext)s"
    merge_output_format := "mp4"
    quiet := true }

/-- `str(target_quality_kbps or 192)` (app.py:114): Python truthiness
again, so an absent or zero bitrate yields the default `"192"`. -/
def quality_str (target_quality_kbps : Option Int) : String :=
  match target_quality_kbps with
  | some k => if k ≠ 0 then toString k else "192"
  | none => "192"

/-- The options `download_audio` hands to `YoutubeDL` (app.py:106-117). -/
def download_audio_opts (tmp : String) (target_codec : String)
    (target_quality_kbps : Option Int) : AudioOpts :=
  { format := "bestaudio/best"
    outtmpl := tmp ++ "/output.%(ext)s"
    quiet := true
    postprocessors :=
      [{ key := "FFmpegExtractAudio"
         preferredcodec := target_codec
         preferredquality := quality_str target_quality_kbps }] }

/-!
The scratch-directory lifecycle.  `ydl.download` is an opaque external
call: we parametrise each run by its outcome — either it fails, or it
succeeds having written a directory listing into the scratch directory.
`with tempfile.TemporaryDirectory() as tmp:` allocates a fresh directory
and removes it when the block exits, normally or by exception; the
embedding threads an explicit world of live scratch directories and
models an escaping exception as an `Except.error` result.
-/

/-- The filesystem state the downloaders touch: the set of live scratch
directories (as ids) and the next fresh id. -/
structure World where
  scratchDirs : List Nat
  nextId : Nat
deriving DecidableEq, Repr

/-- Outcome of the opaque `ydl.download([url])` call: failure, or
success with the files it wrote into the scratch directory. -/
inductive ExtractorOutcome where
  | ok (files : List (String × Bytes))
  | fail (msg : String)
deriving DecidableEq, Repr

/-- `with tempfile.TemporaryDirectory() as tmp:` — allocate a fresh
directory, run the body, remove the directory on every exit path
(the body's result is returned whether it is `ok` or `error`). -/
def with_temp_dir (w : World)
    (body : Nat → World → Except String α × World) :
    Except String α × World :=
  let d := w.nextId
  let w1 : World := { scratchDirs := d :: w.scratchDirs, nextId := w.nextId + 1 }
  let r := body d w1
  (r.1, { r.2 with scratchDirs := r.2.scratchDirs.erase d })

/-- The opaque `ydl.download([url])` call: the url is handed to the
external extractor, whose behaviour the outcome parametrises. -/
def extractor_call (url : String) (outcome : ExtractorOutcome) :
    Except String (List (String × Bytes)) :=
  let _ := url
  match outcome with
  | .fail msg => .error msg
  | .ok files => .ok files

/-- `download_video` (app.py:68-92): scratch directory, format selector,
extractor call, scan for `output.*`, read and return. -/
def download_video (url : String) (height : Option Int)
    (outcome : ExtractorOutcome) (w : World) :
    Except String (Bytes × String × String) × World :=
  with_temp_dir w fun tmp w1 =>
    let _opts := download_video_opts (toString tmp) height
    match extractor_call url outcome with
    | .error msg => (.error msg, w1)
    | .ok files => (read_first_file_by_stem files "output.", w1)

/-- `download_audio` (app.py:95-122): scratch directory, audio options
with post-processor, extractor call, scan for `output.*`, read and
return. -/
def download_audio (url : String) (target_codec : String)
    (target_quality_kbps : Option Int) (outcome : ExtractorOutcome)
    (w : World) : Except String (Bytes × String × String) × World :=
  with_temp_dir w fun tmp w1 =>
    let _opts := download_audio_opts (toString tmp) target_codec target_quality_kbps
    match extractor_call url outcome with
    | .error msg => (.error msg, w1)
    | .ok files => (read_first_file_by_stem files "output.", w1)

/-! ### Helper lemmas -/

/-- The filter of app.py:22 keeps exactly the nonzero heights of streams
whose `vcodec` is not the string `"none"`. -/
lemma resolution_entry_iff (f : StreamFormat) (h : Int) :
    (if f.vcodec ≠ some "none" then truthyHeight f else none) = some h ↔
      f.vcodec ≠ some "none" ∧ f.height = some h ∧ h ≠ 0 := by
  by_cases hv : f.vcodec = some "none"
  · simp [hv]
  · simp only [hv, ne_eq, not_false_eq_true, if_true, true_and]
    unfold truthyHeight
    cases hh : f.height with
    | none => simp
    | some x =>
      by_cases hx : x = 0
      · simp [hx]
        exact fun e => e.symm
      · simp [hx]
        intro e
        subst e
        exact fun e => absurd e hx

/-- Membership in `list_available_resolutions`, characterised. -/
lemma mem_resolutions_iff (formats : List StreamFormat) (h : Int) :
    h ∈ list_available_resolutions formats ↔
      ∃ f ∈ formats, f.vcodec ≠ some "none" ∧ f.height = some h ∧ h ≠ 0 := by
  unfold list_available_resolutions
  rw [(List.perm_insertionSort descInt _).mem_iff, List.mem_dedup, List.mem_filterMap]
  constructor
  · rintro ⟨f, hf, he⟩
    exact ⟨f, hf, (resolution_entry_iff f h).mp he⟩
  · rintro ⟨f, hf, hc⟩
    exact ⟨f, hf, (resolution_entry_iff f h).mpr hc⟩

/-- The resolution list has no duplicates. -/
lemma resolutions_nodup (formats : List StreamFormat) :
    (list_available_resolutions formats).Nodup :=
  (List.perm_insertionSort descInt _).symm.nodup (List.nodup_dedup _)

/-- The resolution list is sorted descending (weakly). -/
lemma resolutions_sorted (formats : List StreamFormat) :
    List.Sorted descInt (list_available_resolutions formats) :=
  List.sorted_insertionSort descInt _

/-- The resolution list is strictly descending. -/
lemma resolutions_strict_desc (formats : List StreamFormat) :
    List.Pairwise (· > ·) (list_available_resolutions formats) := by
  have hs : List.Pairwise descInt (list_available_resolutions formats) :=
    resolutions_sorted formats
  have hn : List.Pairwise (· ≠ ·) (list_available_resolutions formats) :=
    resolutions_nodup formats
  exact (hs.and hn).imp fun hab => lt_of_le_of_ne hab.1 (Ne.symm hab.2)

/-! ### Concrete example inputs -/

/-- A video stream: vp9 at 1080p. -/
def exVp9Stream : StreamFormat :=
  { vcodec := some "vp9", acodec := some "none", height := some 1080
    ext := some "webm", abr := none }

/-- An audio-only stream: opus in webm at 160 kbps. -/
def exOpusStream : StreamFormat :=
  { vcodec := some "none", acodec := some "opus", height := none
    ext := some "webm", abr := some 160 }

/-- A small stream list with one video and one audio stream. -/
def exFormats : List StreamFormat := [exVp9Stream, exOpusStream]

/-- A stream whose `vcodec` key is absent but whose height is known. -/
def exAbsentVcodec : List StreamFormat :=
  [{ vcodec := none, acodec := none, height := some 720, ext := none, abr := none }]

/-! ### Claims C1, C2, C3, C9 -/

/-- Claim C1, counterexample: at target height `0` the selector is the
unconstrained expression, not the three-tier exact-height expression
(`if height:` is false for `0`). -/
theorem C1_counterexample :
    (download_video_opts "tmp" (some 0)).format = "bestvideo+bestaudio/best" ∧
    (download_video_opts "tmp" (some 0)).format ≠
      "bestvideo[height=0]+bestaudio/best[height=0]/best" := by decide

/-- Claim C1 (amended): for every nonzero target height the format
expression handed to the extractor is the three-tier fallback, and with
no target height (or height `0`) it is best video plus best audio
falling back to best overall. -/
theorem C1_format_expression (tmp : String) (h : Int) (hh : h ≠ 0) :
    (download_video_opts tmp (some h)).format =
      "bestvideo[height=" ++ toString h ++ "]+bestaudio/best[height="
        ++ toString h ++ "]/best" ∧
    (download_video_opts tmp none).format = "bestvideo+bestaudio/best" ∧
    (download_video_opts tmp (some 0)).format = "bestvideo+bestaudio/best" := by
  unfold download_video_opts video_format_selector
  simp [hh]

/-- Witness for C1 at height 720. -/
theorem C1_format_expression_witness :
    (download_video_opts "tmp" (some 720)).format =
      "bestvideo[height=" ++ toString (720 : Int) ++ "]+bestaudio/best[height="
        ++ toString (720 : Int) ++ "]/best" ∧
    (download_video_opts "tmp" none).format = "bestvideo+bestaudio/best" ∧
    (download_video_opts "tmp" (some 0)).format = "bestvideo+bestaudio/best" :=
  C1_format_expression "tmp" 720 (by decide)

/-- Claim C2: the resolution list is strictly descending and
duplicate-free, every value is the height of some stream whose video
codec is not `"none"`, and the empty stream list yields the empty
list. -/
theorem C2_resolutions_shape (formats : List StreamFormat) :
    List.Pairwise (· > ·) (list_available_resolutions formats) ∧
    (list_available_resolutions formats).Nodup ∧
    (∀ h ∈ list_available_resolutions formats,
      ∃ f ∈ formats, f.vcodec ≠ some "none" ∧ f.height = some h) ∧
    list_available_resolutions ([] : List StreamFormat) = [] := by
  refine ⟨resolutions_strict_desc formats, resolutions_nodup formats, ?_, rfl⟩
  intro h hmem
  obtain ⟨f, hf, hv, hh, _⟩ := (mem_resolutions_iff formats h).mp hmem
  exact ⟨f, hf, hv, hh⟩

/-- Witness for C2 on a concrete stream list containing a 1080p
stream. -/
theorem C2_resolutions_shape_witness :
    ∃ f ∈ exFormats, f.vcodec ≠ some "none" ∧ f.height = some 1080 :=
  (C2_resolutions_shape exFormats).2.2.1 1080 (by decide)

/-- Claim C3, counterexample: a stream whose `vcodec` key is absent
still contributes its height, because `f.get("vcodec") != "none"` is
true when the key is missing. -/
theorem C3_counterexample :
    ¬ (∀ h ∈ list_available_resolutions exAbsentVcodec,
        ∃ f ∈ exAbsentVcodec,
          f.vcodec ≠ none ∧ f.vcodec ≠ some "none" ∧ f.height = some h) := by
  decide

/-- Claim C3 (amended): a height is included exactly when some stream
has that (nonzero) height and a `vcodec` differing from the string
`"none"` — an absent `vcodec` attribute also qualifies. -/
theorem C3_height_inclusion (formats : List StreamFormat) (h : Int) :
    h ∈ list_available_resolutions formats ↔
      ∃ f ∈ formats, f.vcodec ≠ some "none" ∧ f.height = some h ∧ h ≠ 0 :=
  mem_resolutions_iff formats h

/-- Claim C9: at target height `0` the selector equals the no-height
selector and is not an exact-height expression for `0`. -/
theorem C9_zero_height_selector :
    video_format_selector (some 0) = "bestvideo+bestaudio/best" ∧
    video_format_selector (some 0) = video_format_selector none ∧
    video_format_selector (some 0) ≠
      "bestvideo[height=0]+bestaudio/best[height=0]/best" := by decide

/-! ### Audio-format lemmas and claims C4, C5, C10 -/

/-- Membership in `list_audio_formats`, characterised. -/
lemma mem_audio_formats_iff (formats : List StreamFormat)
    (p : String × Option Int) :
    p ∈ list_audio_formats formats ↔
      ∃ f ∈ formats, is_audio_only f ∧
        p = (ext_or_default f.ext, coerced_abr f.abr) := by
  unfold list_audio_formats
  rw [(List.perm_insertionSort descAbr _).mem_iff, List.mem_dedup, List.mem_filterMap]
  constructor
  · rintro ⟨f, hf, he⟩
    by_cases ha : is_audio_only f
    · simp only [ha, if_true, Option.some.injEq] at he
      exact ⟨f, hf, ha, he.symm⟩
    · simp [ha] at he
  · rintro ⟨f, hf, ha, he⟩
    exact ⟨f, hf, by simp [ha, he]⟩

/-- The audio list has no duplicate pairs. -/
lemma audio_formats_nodup (formats : List StreamFormat) :
    (list_audio_formats formats).Nodup :=
  (List.perm_insertionSort descAbr _).symm.nodup (List.nodup_dedup _)

/-- The audio list is sorted by bitrate descending, unknown as `0`. -/
lemma audio_formats_sorted (formats : List StreamFormat) :
    List.Sorted descAbr (list_audio_formats formats) :=
  List.sorted_insertionSort descAbr _

/-- Claim C4: no two equal `(ext, bitrate)` pairs, every entry comes
from an audio-only stream (video codec `"none"`, audio codec neither
absent nor `"none"`), sorted by bitrate descending with unknown bitrate
as `0`; the empty stream list yields the empty list. -/
theorem C4_audio_options_shape (formats : List StreamFormat) :
    (list_audio_formats formats).Nodup ∧
    (∀ p ∈ list_audio_formats formats,
      ∃ f ∈ formats, is_audio_only f ∧
        p = (ext_or_default f.ext, coerced_abr f.abr)) ∧
    List.Pairwise (fun x y => abrKey y ≤ abrKey x) (list_audio_formats formats) ∧
    list_audio_formats ([] : List StreamFormat) = [] :=
  ⟨audio_formats_nodup formats,
   fun p hp => (mem_audio_formats_iff formats p).mp hp,
   audio_formats_sorted formats, rfl⟩

/-- Witness for C4 on the concrete stream list. -/
theorem C4_audio_options_shape_witness :
    ∃ f ∈ exFormats, is_audio_only f ∧
      ("webm", some (160 : Int)) = (ext_or_default f.ext, coerced_abr f.abr) :=
  (C4_audio_options_shape exFormats).2.1 ("webm", some 160) (by decide)

/-- An audio-only stream whose `abr` attribute is present but zero. -/
def exZeroAbrStream : StreamFormat :=
  { vcodec := some "none", acodec := some "opus", height := none
    ext := some "webm", abr := some 0 }

/-- Claim C5, counterexample: a present-but-zero `abr` attribute yields
an unknown bitrate in the pair, because `int(abr) if abr else None`
tests truthiness, not presence. -/
theorem C5_counterexample :
    exZeroAbrStream.abr = some 0 ∧ is_audio_only exZeroAbrStream ∧
    list_audio_formats [exZeroAbrStream] = [("webm", (none : Option Int))] ∧
    ("webm", some (0 : Int)) ∉ list_audio_formats [exZeroAbrStream] := by
  decide

/-- Claim C5 (amended): a selected audio-only stream contributes the
pair with its bitrate kept exactly when the attribute is present and
nonzero; an absent or zero bitrate attribute yields an unknown
bitrate. -/
theorem C5_abr_coercion (formats : List StreamFormat) (f : StreamFormat)
    (hf : f ∈ formats) (ha : is_audio_only f) :
    (ext_or_default f.ext, coerced_abr f.abr) ∈ list_audio_formats formats ∧
    (∀ a : Int, f.abr = some a → a ≠ 0 → coerced_abr f.abr = some a) ∧
    ((f.abr = none ∨ f.abr = some 0) → coerced_abr f.abr = none) := by
  refine ⟨(mem_audio_formats_iff formats _).mpr ⟨f, hf, ha, rfl⟩, ?_, ?_⟩
  · intro a he hz
    unfold coerced_abr
    simp [he, hz]
  · rintro (he | he) <;> simp [coerced_abr, he]

/-- Witness for C5 on the concrete opus stream. -/
theorem C5_abr_coercion_witness :
    (ext_or_default exOpusStream.ext, coerced_abr exOpusStream.abr)
        ∈ list_audio_formats exFormats ∧
    (∀ a : Int, exOpusStream.abr = some a → a ≠ 0 →
        coerced_abr exOpusStream.abr = some a) ∧
    ((exOpusStream.abr = none ∨ exOpusStream.abr = some 0) →
        coerced_abr exOpusStream.abr = none) :=
  C5_abr_coercion exFormats exOpusStream (by decide) (by decide)

/-- An audio-only stream whose `ext` attribute is absent. -/
def exNoExtStream : StreamFormat :=
  { vcodec := some "none", acodec := some "mp4a.40.2", height := none
    ext := none, abr := some 128 }

/-- Claim C10: an audio-only stream with an absent or empty container
extension contributes a pair whose extension is the default `"m4a"`. -/
theorem C10_default_ext (formats : List StreamFormat) (f : StreamFormat)
    (hf : f ∈ formats) (ha : is_audio_only f)
    (he : f.ext = none ∨ f.ext = some "") :
    ("m4a", coerced_abr f.abr) ∈ list_audio_formats formats := by
  have hd : ext_or_default f.ext = "m4a" := by
    rcases he with he | he <;> simp [ext_or_default, he]
  exact (mem_audio_formats_iff formats _).mpr ⟨f, hf, ha, by rw [hd]⟩

/-- Witness for C10 on a concrete stream with no extension. -/
theorem C10_default_ext_witness :
    ("m4a", coerced_abr exNoExtStream.abr)
        ∈ list_audio_formats [exNoExtStream] :=
  C10_default_ext [exNoExtStream] exNoExtStream (by decide) (by decide)
    (by decide)

/-! ### Claim C6 -/

/-- Claim C6, counterexample: a specified bitrate of `0` is replaced by
the default, because `target_quality_kbps or 192` tests truthiness. -/
theorem C6_counterexample :
    (download_audio_opts "t" "mp3" (some 0)).postprocessors =
      [{ key := "FFmpegExtractAudio", preferredcodec := "mp3"
         preferredquality := "192" }] ∧
    quality_str (some 0) ≠ toString (0 : Int) := by decide

/-- Claim C6 (amended): the audio options select `bestaudio/best` and
carry exactly one `FFmpegExtractAudio` post-processor for the requested
codec; the quality is the requested bitrate when one is specified and
nonzero, and defaults to `192` when absent or zero. -/
theorem C6_audio_opts_shape (tmp codec : String) (q : Option Int) :
    (download_audio_opts tmp codec q).format = "bestaudio/best" ∧
    (download_audio_opts tmp codec q).postprocessors =
      [{ key := "FFmpegExtractAudio", preferredcodec := codec
         preferredquality := quality_str q }] ∧
    (∀ k : Int, q = some k → k ≠ 0 → quality_str q = toString k) ∧
    ((q = none ∨ q = some 0) → quality_str q = "192") := by
  refine ⟨rfl, rfl, ?_, ?_⟩
  · intro k hk hz
    simp [quality_str, hk, hz]
  · rintro (hq | hq) <;> simp [quality_str, hq]

/-- Witness for C6 at codec `mp3`, bitrate 256 (and absent bitrate). -/
theorem C6_audio_opts_shape_witness :
    (download_audio_opts "t" "mp3" (some 256)).format = "bestaudio/best" ∧
    quality_str (some 256) = toString (256 : Int) ∧
    quality_str (none : Option Int) = "192" :=
  ⟨(C6_audio_opts_shape "t" "mp3" (some 256)).1,
   (C6_audio_opts_shape "t" "mp3" (some 256)).2.2.1 256 rfl (by decide),
   (C6_audio_opts_shape "t" "mp3" none).2.2.2 (Or.inl rfl)⟩

/-! ### Claim C7: the output scan -/

/-- The scan raises exactly when no listed name starts with the stem. -/
lemma read_first_error_iff (files : List (String × Bytes)) (stem : String) :
    read_first_file_by_stem files stem =
        Except.error "Downloaded file not found." ↔
      ∀ p ∈ files, ¬ starts_with p.1 stem := by
  induction files with
  | nil => simp [read_first_file_by_stem]
  | cons hd tl ih =>
    obtain ⟨name, data⟩ := hd
    by_cases hs : starts_with name stem
    · simp [read_first_file_by_stem, hs]
    · simp [read_first_file_by_stem, hs, ih]

/-- When a matching file exists, the scan returns the first one, with
its bytes, its name and its inferred MIME type. -/
lemma read_first_ok_of_find (files : List (String × Bytes)) (stem : String)
    (p : String × Bytes)
    (hf : files.find? (fun q => starts_with q.1 stem) = some p) :
    read_first_file_by_stem files stem =
      Except.ok (p.2, p.1, detect_mime_from_ext (last_ext p.1)) := by
  induction files with
  | nil => simp at hf
  | cons hd tl ih =>
    obtain ⟨name, data⟩ := hd
    by_cases hs : starts_with name stem
    · rw [List.find?_cons_of_pos _ (by simpa using hs)] at hf
      obtain rfl : (name, data) = p := by simpa using hf
      simp [read_first_file_by_stem, hs]
    · rw [List.find?_cons_of_neg _ (by simpa using hs)] at hf
      simpa [read_first_file_by_stem, hs] using ih hf

/-- Claim C7: with the fixed stem `output.`, the scan raises exactly
when no file name starts with the stem — in particular on the empty
directory — and otherwise returns the first matching file's bytes, name
and inferred MIME type. -/
theorem C7_output_scan (files : List (String × Bytes)) :
    (read_first_file_by_stem files "output." =
        Except.error "Downloaded file not found." ↔
      ∀ p ∈ files, ¬ starts_with p.1 "output.") ∧
    read_first_file_by_stem ([] : List (String × Bytes)) "output." =
      Except.error "Downloaded file not found." ∧
    (∀ p : String × Bytes,
      files.find? (fun q => starts_with q.1 "output.") = some p →
      read_first_file_by_stem files "output." =
        Except.ok (p.2, p.1, detect_mime_from_ext (last_ext p.1))) :=
  ⟨read_first_error_iff files "output.", rfl,
   fun p hp => read_first_ok_of_find files "output." p hp⟩

/-- A concrete directory listing with one matching file. -/
def exDir : List (String × Bytes) :=
  [("notes.txt", [0]), ("output.mp4", [7, 7])]

/-- Witness for C7: the scan of `exDir` returns the `output.mp4`
entry. -/
theorem C7_output_scan_witness :
    read_first_file_by_stem exDir "output." =
      Except.ok ([7, 7], "output.mp4",
        detect_mime_from_ext (last_ext "output.mp4")) :=
  (C7_output_scan exDir).2.2 ("output.mp4", [7, 7]) (by decide)

/-! ### Claim C8: scratch-directory lifecycle -/

/-- Claim C8: each download call allocates the fresh directory id
`w.nextId` and removes it on every exit path — extractor failure,
missing output and success are all instances of the quantified
outcome — so the set of live scratch directories after the call is
exactly the set before it. -/
theorem C8_scratch_lifecycle (url1 url2 : String) (height : Option Int)
    (codec : String) (q : Option Int) (outcome1 outcome2 : ExtractorOutcome)
    (w : World) :
    (download_video url1 height outcome1 w).2 =
      { scratchDirs := w.scratchDirs, nextId := w.nextId + 1 } ∧
    (download_audio url2 codec q outcome2 w).2 =
      { scratchDirs := w.scratchDirs, nextId := w.nextId + 1 } := by
  constructor
  · cases outcome1 <;>
      simp [download_video, with_temp_dir, extractor_call]
  · cases outcome2 <;>
      simp [download_audio, with_temp_dir, extractor_call]

end YtApp
